import Mathlib

/-!
Verification of the encrypted DB access layer (src/src/db.cpp).

Shallow embedding conventions:
- `handle` (64-bit C++ `handle`) is a `Nat`; XOR-based obfuscation is `Nat` XOR.
- payload strings are `Data := List Nat`; the external padded-CBC cipher is an
  abstract pair of functions `enc : Data → Data` (total, deterministic) and
  `dec : Data → Option Data` (`none` models a padding/decryption failure).
- backend primitives (putrootnode, getrootnode, put, next, count queries,
  cursors) are abstract function parameters, since the concrete storage engine
  is an external collaborator.
- the two obfuscation subkeys `hkey`/`phkey` are `Option Key`: `none` models the
  NULL pointers set by the constructor before provisioning.  Applying
  `SymmCipher::xorblock` to a NULL key is modeled by the `Exec.nullKeyDeref`
  outcome (a crash / undefined behavior, distinct from any normal return).
-/

namespace MegaDb

abbrev handle := Nat

abbrev Key := Nat

abbrev Data := List Nat

/-- The sentinel undefined handle: in the SDK, `UNDEF` is the all-ones 64-bit
handle and `ISUNDEF(h)` compares against it. -/
def UNDEF : handle := 2 ^ 64 - 1

/-- Outcome of an operation that may dereference a NULL obfuscation subkey:
either a normal return value or the crash from XOR-ing through a NULL pointer. -/
inductive Exec (β : Type) where
  | ok (b : β)
  | nullKeyDeref
  deriving DecidableEq

/-- Embeds `SymmCipher::xorblock((byte*)&h, key, HANDLEKEYLENGTH)`: with a
provisioned subkey it XORs the handle with the key; with a NULL subkey the
C++ code dereferences the NULL pointer, modeled as `nullKeyDeref`. -/
def xorblock (h : handle) : Option Key → Exec handle
  | some k => .ok (h ^^^ k)
  | none => .nullKeyDeref

/-- Embeds db.cpp lines 94-108: the derived share classification passed to the
backend node-upsert.  `shared = 0`; `1` if outshares; overwritten to `2` if
inshare; `+3` if pendingshares. -/
def shareClass (outshares inshare pendingshares : Bool) : Nat :=
  let s0 := if outshares then 1 else 0
  let s1 := if inshare then 2 else s0
  if pendingshares then s1 + 3 else s1

/-- Fields of the in-memory node that `DbTable::putnode` reads.  `isFile`
stands for `n->type == FILENODE`; `serialized` is the result of
`n->serialize`, `fingerprint` of `n->serializefingerprint`. -/
structure NodeRec where
  nodehandle : handle
  parenthandle : handle
  isFile : Bool
  outshares : Bool
  inshare : Bool
  pendingshares : Bool
  serialized : Data
  fingerprint : Data
  attrstring : Data

/-- Embeds `DbTable::putnode(pnode_t)` (db.cpp lines 75-118): serialize and
pad-encrypt the blob, obfuscate own and parent handles, encrypt the
fingerprint for file nodes (empty string otherwise), derive the share class,
call the backend upsert.  No provisioning check is performed before the
`xorblock` calls. -/
def putnode (hkey phkey : Option Key) (enc : Data → Data)
    (backend : handle → handle → Data → Data → Nat → Data → Bool)
    (n : NodeRec) : Exec Bool :=
  let data := enc n.serialized
  match xorblock n.nodehandle hkey with
  | .nullKeyDeref => .nullKeyDeref
  | .ok h =>
    match xorblock n.parenthandle phkey with
    | .nullKeyDeref => .nullKeyDeref
    | .ok ph =>
      let fp := if n.isFile then enc n.fingerprint else []
      let shared := shareClass n.outshares n.inshare n.pendingshares
      .ok (backend h ph fp n.attrstring shared data)

/-- Embeds `DbTable::putuser` (db.cpp lines 120-139): an undefined user handle
is skipped with success; otherwise serialize, encrypt, obfuscate, upsert. -/
def putuser (hkey : Option Key) (enc : Data → Data)
    (backend : handle → Data → Bool) (userhandle : handle) (serialized : Data) :
    Exec Bool :=
  if userhandle = UNDEF then .ok true
  else
    let data := enc serialized
    match xorblock userhandle hkey with
    | .nullKeyDeref => .nullKeyDeref
    | .ok uh => .ok (backend uh data)

/-- Embeds `DbTable::putpcr` (db.cpp lines 141-151). -/
def putpcr (hkey : Option Key) (enc : Data → Data)
    (backend : handle → Data → Bool) (id : handle) (serialized : Data) :
    Exec Bool :=
  let data := enc serialized
  match xorblock id hkey with
  | .nullKeyDeref => .nullKeyDeref
  | .ok i => .ok (backend i data)

/-- Embeds `DbTable::delnode` (db.cpp lines 153-159). -/
def delnode (hkey : Option Key) (backend : handle → Bool) (h : handle) :
    Exec Bool :=
  match xorblock h hkey with
  | .nullKeyDeref => .nullKeyDeref
  | .ok h2 => .ok (backend h2)

/-- Embeds `DbTable::delpcr` (db.cpp lines 161-167). -/
def delpcr (hkey : Option Key) (backend : handle → Bool) (id : handle) :
    Exec Bool :=
  match xorblock id hkey with
  | .nullKeyDeref => .nullKeyDeref
  | .ok i => .ok (backend i)

/-- Embeds `DbTable::getnode(handle, string*)` (db.cpp lines 169-179):
obfuscate the handle, exact-match lookup, decrypt on hit.  The returned data
component holds the out-parameter contents (ciphertext left in place when
decryption fails). -/
def getnodeByHandle (hkey : Option Key) (dec : Data → Option Data)
    (lookup : handle → Option Data) (h : handle) : Exec (Bool × Option Data) :=
  match xorblock h hkey with
  | .nullKeyDeref => .nullKeyDeref
  | .ok h2 =>
    match lookup h2 with
    | some d =>
      match dec d with
      | some p => .ok (true, some p)
      | none => .ok (false, some d)
    | none => .ok (false, none)

/-- Embeds `DbTable::getnode(string*, string*)` (db.cpp lines 181-191): the
caller's fingerprint string is pad-encrypted IN PLACE, then used for an exact
ciphertext-match lookup; decrypt on hit.  Result: (return value, fingerprint
out-parameter after the call, data out-parameter). -/
def getnodeByFingerprint (enc : Data → Data) (dec : Data → Option Data)
    (lookupFp : Data → Option Data) (fingerprint : Data) :
    Bool × Data × Option Data :=
  let fp2 := enc fingerprint
  match lookupFp fp2 with
  | some d =>
    match dec d with
    | some p => (true, fp2, some p)
    | none => (false, fp2, some d)
  | none => (false, fp2, none)

/-- Embeds `DbTable::getnumchildren` (db.cpp lines 213-218): obfuscate the
parent handle with `phkey`, delegate to the backend count query (which returns
success plus the count out-parameter). -/
def getnumchildren (phkey : Option Key) (query : handle → Bool × Int)
    (ph : handle) : Exec (Bool × Int) :=
  match xorblock ph phkey with
  | .nullKeyDeref => .nullKeyDeref
  | .ok p => .ok (query p)

/-- Embeds `DbTable::getnumchildfiles` (db.cpp lines 220-225). -/
def getnumchildfiles (phkey : Option Key) (query : handle → Bool × Int)
    (ph : handle) : Exec (Bool × Int) :=
  match xorblock ph phkey with
  | .nullKeyDeref => .nullKeyDeref
  | .ok p => .ok (query p)

/-- Embeds `DbTable::getnumchildfolders` (db.cpp lines 227-232). -/
def getnumchildfolders (phkey : Option Key) (query : handle → Bool × Int)
    (ph : handle) : Exec (Bool × Int) :=
  match xorblock ph phkey with
  | .nullKeyDeref => .nullKeyDeref
  | .ok p => .ok (query p)

/-- De-obfuscates every handle returned by a backend cursor with `hkey`
(the `while (nexthandle(&h)) xorblock; push_back;` loops). -/
def deobfList (hkey : Option Key) : List handle → Exec (List handle)
  | [] => .ok []
  | h :: rest =>
    match xorblock h hkey with
    | .nullKeyDeref => .nullKeyDeref
    | .ok h2 =>
      match deobfList hkey rest with
      | .nullKeyDeref => .nullKeyDeref
      | .ok hs => .ok (h2 :: hs)

/-- Embeds `DbTable::gethandleschildren` (db.cpp lines 234-249): obfuscate the
parent with `phkey`, rewind the child cursor, de-obfuscate each row handle
with `hkey`. -/
def gethandleschildren (hkey phkey : Option Key)
    (cursor : handle → List handle) (ph : handle) : Exec (List handle) :=
  match xorblock ph phkey with
  | .nullKeyDeref => .nullKeyDeref
  | .ok p => deobfList hkey (cursor p)

/-- Embeds `DbTable::gethandlesencryptednodes` (db.cpp lines 251-265). -/
def gethandlesencryptednodes (hkey : Option Key) (cursor : List handle) :
    Exec (List handle) :=
  deobfList hkey cursor

/-- Embeds `DbTable::gethandlesoutshares` (db.cpp lines 267-290): with a
defined parent, obfuscate it and scan its children; with `UNDEF`, scan the
whole set (no parent obfuscation). -/
def gethandlesoutshares (hkey phkey : Option Key) (cursorAll : List handle)
    (cursorChild : handle → List handle) (ph : handle) : Exec (List handle) :=
  if ph ≠ UNDEF then
    match xorblock ph phkey with
    | .nullKeyDeref => .nullKeyDeref
    | .ok p => deobfList hkey (cursorChild p)
  else
    deobfList hkey cursorAll

/-- Embeds `DbTable::gethandlespendingshares` (db.cpp lines 292-315), same
shape as `gethandlesoutshares`. -/
def gethandlespendingshares (hkey phkey : Option Key) (cursorAll : List handle)
    (cursorChild : handle → List handle) (ph : handle) : Exec (List handle) :=
  if ph ≠ UNDEF then
    match xorblock ph phkey with
    | .nullKeyDeref => .nullKeyDeref
    | .ok p => deobfList hkey (cursorChild p)
  else
    deobfList hkey cursorAll

/-- Embeds `DbTable::put(uint32_t, Cachable*, SymmCipher*)` (db.cpp lines
334-353).  `S` is IDSPACING, `record` the result of `record->serialize`
(`none` on serialization failure), `dbid`/`nextid` the record id and the
allocator watermark before the call.  Returns (return value, dbid after,
nextid after, the backend write performed if any). -/
def put (S : Nat) (enc : Data → Data) (backend : Nat → Data → Bool)
    (record : Option Data) (dbid nextid typ : Nat) :
    Bool × Nat × Nat × Option (Nat × Data) :=
  match record with
  | none => (true, dbid, nextid, none)
  | some d =>
    let data := enc d
    let dbid2 := if dbid = 0 then (nextid + S) ||| typ else dbid
    let nextid2 := if dbid = 0 then nextid + S else nextid
    (backend dbid2 data, dbid2, nextid2, some (dbid2, data))

/-- A sequence of generic `put` calls on fresh records (dbid = 0), each given
by its type tag and successfully serialized payload; threads the watermark and
collects the assigned dbids in call order. -/
def putSeq (S : Nat) (enc : Data → Data) (backend : Nat → Data → Bool)
    (nextid : Nat) : List (Nat × Data) → Nat × List Nat
  | [] => (nextid, [])
  | (t, d) :: rest =>
    let r := put S enc backend (some d) 0 nextid t
    let rr := putSeq S enc backend r.2.2.1 rest
    (rr.1, r.2.1 :: rr.2)

/-- Embeds `id & -IDSPACING` on the record id: for `S` a power of two dividing
2^32, two's-complement AND with `-S` clears the low `log2 S` bits, i.e. rounds
down to a multiple of `S`. -/
def alignDown (S id : Nat) : Nat := id - id % S

/-- Embeds `DbTable::next(uint32_t*, string*, SymmCipher*)` (db.cpp lines
356-374).  `row` is the backend cursor result: `none` when no row, otherwise
the record id stored into `*type` plus the raw payload.  Returns (return
value, nextid after, the out-parameters (type, data) after the call). -/
def next (S : Nat) (dec : Data → Option Data) (nextid : Nat)
    (row : Option (Nat × Data)) : Bool × Nat × Option (Nat × Data) :=
  match row with
  | none => (false, nextid, none)
  | some (t, d) =>
    if t = 0 then (true, nextid, some (t, d))
    else
      let nextid2 := if nextid < t then alignDown S t else nextid
      match dec d with
      | some p => (true, nextid2, some (t, p))
      | none => (false, nextid2, some (t, d))

/-- Embeds `DbTable::encrypthandle` (db.cpp lines 317-323): base64-encode the
fixed-width handle, then pad-encrypt the text.  The base64 step is the external
encoder, abstracted as `b64 : handle → Data`. -/
def encrypthandle (enc : Data → Data) (b64 : handle → Data) (h : handle) :
    Data :=
  enc (b64 h)

/-- Embeds `DbTable::decrypthandle` (db.cpp lines 325-331): decrypt, and only
on success base64-decode into the output handle.  On decryption failure the
function returns with the output handle UNCHANGED (the `if` has no else
branch and the function returns void). -/
def decrypthandle (dec : Data → Option Data) (b64d : Data → handle)
    (h : handle) (d : Data) : handle :=
  match dec d with
  | some p => b64d p
  | none => h

/-- The slot-writing loop of `DbTable::putrootnodes` (db.cpp lines 41-56):
for each remaining handle, encrypt and write to backend slot `i+1`; on the
first backend failure return false with the store as written SO FAR.
`putok j` tells whether the backend accepts the write to slot `j`; `store`
is the backend's slot contents. -/
def putSlots (putok : Nat → Bool) (enc : Data → Data) (b64 : handle → Data) :
    List handle → Nat → (Nat → Option Data) → Bool × (Nat → Option Data)
  | [], _, store => (true, store)
  | h :: rest, i, store =>
    let d := encrypthandle enc b64 h
    if putok (i + 1) then
      putSlots putok enc b64 rest (i + 1)
        (fun j => if j = i + 1 then some d else store j)
    else
      (false, store)

/-- Embeds `DbTable::putrootnodes(handle*)`: writes the three root handles to
slots 1..3. -/
def putrootnodes (putok : Nat → Bool) (enc : Data → Data)
    (b64 : handle → Data) (r1 r2 r3 : handle) (store : Nat → Option Data) :
    Bool × (Nat → Option Data) :=
  putSlots putok enc b64 [r1, r2, r3] 0 store

/-- The slot-reading loop of `DbTable::getrootnodes` (db.cpp lines 58-73):
for each slot, a backend read failure aborts with false (later entries of the
caller's array untouched); on a read hit the slot is passed through
`decrypthandle`, whose result silently keeps the old handle when decryption
fails. -/
def getSlots (get : Nat → Option Data) (dec : Data → Option Data)
    (b64d : Data → handle) : List handle → Nat → Bool × List handle
  | [], _ => (true, [])
  | h :: rest, i =>
    match get (i + 1) with
    | none => (false, h :: rest)
    | some d =>
      let h2 := decrypthandle dec b64d h d
      let r := getSlots get dec b64d rest (i + 1)
      (r.1, h2 :: r.2)

/-- Embeds `DbTable::getrootnodes(handle*)`: reads slots 1..3 into the
caller's three handles. -/
def getrootnodes (get : Nat → Option Data) (dec : Data → Option Data)
    (b64d : Data → handle) (r1 r2 r3 : handle) : Bool × List handle :=
  getSlots get dec b64d [r1, r2, r3] 0

/-- The SDK error codes that appear in `DbQuery::execute`. -/
inductive ErrorCode where
  | API_OK
  | API_ENOENT
  | API_EREAD
  | API_EARGS
  deriving DecidableEq

/-- The `DbQuery::QueryType` values used in db.cpp: the two child-count
queries and the shutdown sentinel (named DELETE in the source). -/
inductive QueryType where
  | GET_NUM_CHILD_FILES
  | GET_NUM_CHILD_FOLDERS
  | DELETE
  deriving DecidableEq

/-- The provisioned store as `DbQuery::execute` sees it: each count query
returns success plus the count written through the out-parameter. -/
structure Store where
  numchildfiles : handle → Bool × Int
  numchildfolders : handle → Bool × Int

/-- A call made into the store, recorded to express that the absent-store
branch performs no store call. -/
inductive StoreCall where
  | files (h : handle)
  | folders (h : handle)
  deriving DecidableEq

/-- Embeds `DbQuery::execute` (db.cpp lines 386-409).  Returns the error code
set, the `number` field after the call (0 from the constructor when the query
does not run), and the list of store calls made. -/
def execute (sctable : Option Store) (t : QueryType) (h : handle) :
    ErrorCode × Int × List StoreCall :=
  match sctable with
  | none => (.API_ENOENT, 0, [])
  | some st =>
    match t with
    | .GET_NUM_CHILD_FILES =>
      let r := st.numchildfiles h
      (if r.1 then .API_OK else .API_EREAD, r.2, [.files h])
    | .GET_NUM_CHILD_FOLDERS =>
      let r := st.numchildfolders h
      (if r.1 then .API_OK else .API_EREAD, r.2, [.folders h])
    | .DELETE => (.API_EARGS, 0, [])

/-- The result callbacks `DbThread::loop` dispatches to the app layer. -/
inductive Callback where
  | getnumchildfiles_result (n : Int) (e : ErrorCode)
  | getnumchildfolders_result (n : Int) (e : ErrorCode)
  deriving DecidableEq

/-- The callback the worker fires for one drained query (db.cpp lines
477-490): count queries produce exactly one result callback carrying
(number, error) after `execute`; the DELETE sentinel produces none. -/
def cbOf (sctable : Option Store) (q : QueryType × handle) : Option Callback :=
  let r := execute sctable q.1 q.2
  match q.1 with
  | .GET_NUM_CHILD_FILES => some (.getnumchildfiles_result r.2.1 r.1)
  | .GET_NUM_CHILD_FOLDERS => some (.getnumchildfolders_result r.2.1 r.1)
  | .DELETE => none

/-- Whether a queued query is the shutdown sentinel. -/
def isShutdown (q : QueryType × handle) : Bool :=
  match q.1 with
  | .DELETE => true
  | _ => false

/-- The inner drain loop of `DbThread::loop` (db.cpp lines 471-493): pop the
front query, execute it, fire its callback, set the exit flag on the DELETE
sentinel, and continue until the queue is empty.  Returns the callbacks fired
in order and the exit flag. -/
def drainBatch (sctable : Option Store) :
    List (QueryType × handle) → Bool → List Callback × Bool
  | [], ex => ([], ex)
  | q :: qs, ex =>
    let cb := cbOf sctable q
    let ex2 := if isShutdown q then true else ex
    let rest := drainBatch sctable qs ex2
    (cb.toList ++ rest.1, rest.2)

/-- The outer wait/wake loop of `DbThread::loop` (db.cpp lines 464-498): each
wake-up drains one batch; after a drain that saw the DELETE sentinel the
thread breaks out and processes no further batches. -/
def workerLoop (sctable : Option Store) :
    List (List (QueryType × handle)) → List Callback
  | [] => []
  | b :: rest =>
    let r := drainBatch sctable b false
    if r.2 then r.1 else r.1 ++ workerLoop sctable rest

/-- A concrete node used to evaluate putnode at explicit inputs. -/
def nodeC : NodeRec :=
  ⟨1, 2, false, false, false, false, [], [], []⟩

/-- C3: for every node, putnode hands the backend the derived share class, and
the shareClass derivation yields 0 for (false,false,false), 1 for
(true,false,false), 2 for (false,true,false), 3 for (false,false,true) and 4
for (true,false,true). -/
theorem putnode_shareClass_values (k1 k2 : Key) (enc : Data → Data)
    (backend : handle → handle → Data → Data → Nat → Data → Bool)
    (n : NodeRec) :
    putnode (some k1) (some k2) enc backend n =
      .ok (backend (n.nodehandle ^^^ k1) (n.parenthandle ^^^ k2)
        (if n.isFile then enc n.fingerprint else []) n.attrstring
        (shareClass n.outshares n.inshare n.pendingshares)
        (enc n.serialized)) ∧
    shareClass false false false = 0 ∧
    shareClass true false false = 1 ∧
    shareClass false true false = 2 ∧
    shareClass false false true = 3 ∧
    shareClass true false true = 4 :=
  ⟨rfl, rfl, rfl, rfl, rfl, rfl⟩

/-- C7: a generic put whose record fails to serialize returns success, writes
nothing to the backend, assigns no dbid and leaves the watermark nextid
unchanged. -/
theorem put_serialize_failure_skips (S : Nat) (enc : Data → Data)
    (backend : Nat → Data → Bool) (dbid nextid typ : Nat) :
    put S enc backend none dbid nextid typ = (true, dbid, nextid, none) :=
  rfl

/-- C8: DbQuery::execute dispatches purely on its type: an absent store sets
API_ENOENT and makes no store call; the two count types call the matching
count query and set API_OK on success and API_EREAD on failure; any other
type sets API_EARGS. -/
theorem DbQuery_execute_dispatch (st : Store) (t : QueryType) (h : handle) :
    execute none t h = (.API_ENOENT, 0, []) ∧
    execute (some st) .GET_NUM_CHILD_FILES h =
      (if (st.numchildfiles h).1 then .API_OK else .API_EREAD,
        (st.numchildfiles h).2, [.files h]) ∧
    execute (some st) .GET_NUM_CHILD_FOLDERS h =
      (if (st.numchildfolders h).1 then .API_OK else .API_EREAD,
        (st.numchildfolders h).2, [.folders h]) ∧
    execute (some st) .DELETE h = (.API_EARGS, 0, []) :=
  ⟨rfl, rfl, rfl, rfl⟩

/-- C10: getnode by fingerprint overwrites the caller's fingerprint argument
with its pad-encryption before the lookup, so after the call — hit or miss —
the caller's string holds the ciphertext of the fingerprint. -/
theorem getnode_fingerprint_mutates_arg (enc : Data → Data)
    (dec : Data → Option Data) (lookupFp : Data → Option Data) (fp : Data) :
    (getnodeByFingerprint enc dec lookupFp fp).2.1 = enc fp := by
  cases hl : lookupFp (enc fp) with
  | none => simp [getnodeByFingerprint, hl]
  | some d =>
    cases hd : dec d with
    | none => simp [getnodeByFingerprint, hl, hd]
    | some p => simp [getnodeByFingerprint, hl, hd]

/-- C6: at a failing input where the backend returns a payload for every root
slot but decryption fails, getrootnodes returns SUCCESS and leaves the three
output handles untouched (7, 8, 9), because decrypthandle silently swallows
the decryption failure — contradicting the spec's rule that a decode failure
is surfaced as a failed read. -/
theorem getrootnodes_swallows_decode_failure :
    getrootnodes (fun _ => some [0]) (fun _ => none) (fun _ => 0) 7 8 9 =
      (true, [7, 8, 9]) :=
  rfl

/-- C1 counterexample: with a backend that accepts the write to slot 1 and
rejects the write to slot 2, putrootnodes reports failure but slot 1's stored
value HAS changed (from none to the newly encrypted handle), so the operation
is not all-or-nothing over the backend state. -/
theorem putrootnodes_not_atomic_cex :
    (putrootnodes (fun i => decide (i = 1)) id (fun h => [h]) 5 6 7
      (fun _ => none)).1 = false ∧
    (putrootnodes (fun i => decide (i = 1)) id (fun h => [h]) 5 6 7
      (fun _ => none)).2 1 = some [5] ∧
    (fun _ => (none : Option Data)) 1 ≠
      (putrootnodes (fun i => decide (i = 1)) id (fun h => [h]) 5 6 7
        (fun _ => none)).2 1 :=
  ⟨rfl, rfl, by decide⟩

/-- C1 amended: putrootnodes writes slots 1, 2, 3 in order and aborts with
failure at the first backend rejection; slots already written before the
failure keep their new values (no rollback), while the failing slot, the
later slots and every other key are unchanged; when all three writes succeed
it returns true with all three slots updated. -/
theorem putrootnodes_abort_semantics (putok : Nat → Bool) (enc : Data → Data)
    (b64 : handle → Data) (r1 r2 r3 : handle) (store : Nat → Option Data) :
    (putok 1 = false →
      putrootnodes putok enc b64 r1 r2 r3 store = (false, store)) ∧
    (putok 1 = true → putok 2 = false →
      (putrootnodes putok enc b64 r1 r2 r3 store).1 = false ∧
      (putrootnodes putok enc b64 r1 r2 r3 store).2 1 =
        some (encrypthandle enc b64 r1) ∧
      (∀ j, j ≠ 1 →
        (putrootnodes putok enc b64 r1 r2 r3 store).2 j = store j)) ∧
    (putok 1 = true → putok 2 = true → putok 3 = false →
      (putrootnodes putok enc b64 r1 r2 r3 store).1 = false ∧
      (putrootnodes putok enc b64 r1 r2 r3 store).2 1 =
        some (encrypthandle enc b64 r1) ∧
      (putrootnodes putok enc b64 r1 r2 r3 store).2 2 =
        some (encrypthandle enc b64 r2) ∧
      (∀ j, j ≠ 1 → j ≠ 2 →
        (putrootnodes putok enc b64 r1 r2 r3 store).2 j = store j)) ∧
    (putok 1 = true → putok 2 = true → putok 3 = true →
      (putrootnodes putok enc b64 r1 r2 r3 store).1 = true ∧
      (putrootnodes putok enc b64 r1 r2 r3 store).2 1 =
        some (encrypthandle enc b64 r1) ∧
      (putrootnodes putok enc b64 r1 r2 r3 store).2 2 =
        some (encrypthandle enc b64 r2) ∧
      (putrootnodes putok enc b64 r1 r2 r3 store).2 3 =
        some (encrypthandle enc b64 r3) ∧
      (∀ j, j ≠ 1 → j ≠ 2 → j ≠ 3 →
        (putrootnodes putok enc b64 r1 r2 r3 store).2 j = store j)) := by
  refine ⟨?_, ?_, ?_, ?_⟩
  · intro h1
    simp [putrootnodes, putSlots, h1]
  · intro h1 h2
    refine ⟨?_, ?_, ?_⟩
    · simp [putrootnodes, putSlots, h1, h2]
    · simp [putrootnodes, putSlots, h1, h2]
    · intro j hj
      simp [putrootnodes, putSlots, h1, h2, hj]
  · intro h1 h2 h3
    refine ⟨?_, ?_, ?_, ?_⟩
    · simp [putrootnodes, putSlots, h1, h2, h3]
    · simp [putrootnodes, putSlots, h1, h2, h3]
    · simp [putrootnodes, putSlots, h1, h2, h3]
    · intro j hj1 hj2
      simp [putrootnodes, putSlots, h1, h2, h3, hj1, hj2]
  · intro h1 h2 h3
    refine ⟨?_, ?_, ?_, ?_, ?_⟩
    · simp [putrootnodes, putSlots, h1, h2, h3]
    · simp [putrootnodes, putSlots, h1, h2, h3]
    · simp [putrootnodes, putSlots, h1, h2, h3]
    · simp [putrootnodes, putSlots, h1, h2, h3]
    · intro j hj1 hj2 hj3
      simp [putrootnodes, putSlots, h1, h2, h3, hj1, hj2, hj3]

/-- C1 amended witness: the failure-at-slot-2 branch evaluated at a concrete
backend and handles. -/
theorem putrootnodes_abort_semantics_witness :
    ((fun i => decide (i = 1)) 1 = true) ∧
    ((fun i => decide (i = 1)) 2 = false) ∧
    (putrootnodes (fun i => decide (i = 1)) id (fun h => [h]) 5 6 7
      (fun _ => none)).1 = false ∧
    (putrootnodes (fun i => decide (i = 1)) id (fun h => [h]) 5 6 7
      (fun _ => none)).2 1 = some (encrypthandle id (fun h => [h]) 5) ∧
    (putrootnodes (fun i => decide (i = 1)) id (fun h => [h]) 5 6 7
      (fun _ => none)).2 2 = (fun _ => (none : Option Data)) 2 := by
  have happ := (putrootnodes_abort_semantics (fun i => decide (i = 1)) id
    (fun h => [h]) 5 6 7 (fun _ => none)).2.1 (by decide) (by decide)
  exact ⟨by decide, by decide, happ.1, happ.2.1, happ.2.2 2 (by decide)⟩

/-- C2 counterexample: invoked right after construction (hkey = phkey = NULL,
modeled as none), putnode does not fail with an error return: it dereferences
the NULL subkey (nullKeyDeref), which is neither the ok-true nor the ok-false
return; and gethandlesoutshares with the UNDEF parent over an empty cursor
returns plain success without any provisioning check. -/
theorem obfuscation_unprovisioned_cex :
    putnode none none id (fun _ _ _ _ _ _ => true) nodeC = .nullKeyDeref ∧
    putnode none none id (fun _ _ _ _ _ _ => true) nodeC ≠ .ok true ∧
    putnode none none id (fun _ _ _ _ _ _ => true) nodeC ≠ .ok false ∧
    gethandlesoutshares none none [] (fun _ => []) UNDEF = .ok [] := by
  refine ⟨rfl, by decide, by decide, ?_⟩
  simp [gethandlesoutshares, deobfList]

/-- C2 amended: none of the obfuscating DbTable operations checks whether the
subkeys are provisioned; each one that reaches an obfuscation step
dereferences the NULL subkey (modeled as the nullKeyDeref crash) instead of
failing with an error return.  (For putuser the handle must be defined, since
an undefined user handle is skipped before obfuscation; for the listing over
all encrypted nodes the cursor must return at least one row; for the share
listings the parent must be defined, since with UNDEF and an empty cursor
they return success without touching the keys.) -/
theorem unprovisioned_ops_no_graceful_error (enc : Data → Data)
    (dec : Data → Option Data)
    (bput : handle → handle → Data → Data → Nat → Data → Bool)
    (bkv : handle → Data → Bool) (bdel : handle → Bool)
    (lookup : handle → Option Data) (q : handle → Bool × Int)
    (cursorAll : List handle) (cursorChild : handle → List handle)
    (n : NodeRec) (u id2 h ph h0 : handle) (d : Data) (hs : List handle)
    (hu : u ≠ UNDEF) (hph : ph ≠ UNDEF) :
    putnode none none enc bput n = .nullKeyDeref ∧
    getnodeByHandle none dec lookup h = .nullKeyDeref ∧
    putuser none enc bkv u d = .nullKeyDeref ∧
    putpcr none enc bkv id2 d = .nullKeyDeref ∧
    delnode none bdel h = .nullKeyDeref ∧
    delpcr none bdel id2 = .nullKeyDeref ∧
    getnumchildren none q ph = .nullKeyDeref ∧
    getnumchildfiles none q ph = .nullKeyDeref ∧
    getnumchildfolders none q ph = .nullKeyDeref ∧
    gethandleschildren none none cursorChild ph = .nullKeyDeref ∧
    gethandlesencryptednodes none (h0 :: hs) = .nullKeyDeref ∧
    gethandlesoutshares none none cursorAll cursorChild ph = .nullKeyDeref ∧
    gethandlespendingshares none none cursorAll cursorChild ph =
      .nullKeyDeref := by
  refine ⟨rfl, rfl, ?_, rfl, rfl, rfl, rfl, rfl, rfl, rfl, rfl, ?_, ?_⟩
  · simp [putuser, hu, xorblock]
  · simp [gethandlesoutshares, hph, xorblock]
  · simp [gethandlespendingshares, hph, xorblock]

/-- C2 amended witness: the unprovisioned operations evaluated at concrete
inputs with a defined user handle and a defined parent handle. -/
theorem unprovisioned_ops_no_graceful_error_witness :
    ((5 : handle) ≠ UNDEF) ∧ ((3 : handle) ≠ UNDEF) ∧
    putnode none none id (fun _ _ _ _ _ _ => true) nodeC = .nullKeyDeref ∧
    putuser none id (fun _ _ => true) 5 [] = .nullKeyDeref ∧
    gethandlesoutshares none none [] (fun _ => []) 3 = .nullKeyDeref := by
  have happ := unprovisioned_ops_no_graceful_error id (fun _ => none)
    (fun _ _ _ _ _ _ => true) (fun _ _ => true) (fun _ => true)
    (fun _ => none) (fun _ => (true, 0)) [] (fun _ => []) nodeC
    5 6 7 3 9 [] [] (by decide) (by decide)
  exact ⟨by decide, by decide, happ.1, happ.2.2.1,
    happ.2.2.2.2.2.2.2.2.2.2.2.1⟩

/-- Invariants of a sequence of fresh-record generic puts: starting from a
watermark divisible by SPACING = 2 ^ k, with every tag below SPACING, the
assigned dbids are strictly increasing, all exceed the starting watermark by
at least SPACING, and each id masked with SPACING - 1 recovers its tag. -/
theorem putSeq_aux (e : Data → Data) (b : Nat → Data → Bool) (k : Nat) :
    ∀ (ts : List (Nat × Data)) (n : Nat), 2 ^ k ∣ n →
      (∀ p ∈ ts, p.1 < 2 ^ k) →
      List.Pairwise (· < ·) (putSeq (2 ^ k) e b n ts).2 ∧
      (∀ id ∈ (putSeq (2 ^ k) e b n ts).2, n + 2 ^ k ≤ id) ∧
      List.Forall₂ (fun id p => id &&& (2 ^ k - 1) = p.1)
        (putSeq (2 ^ k) e b n ts).2 ts
  | [], n, _, _ => by
    refine ⟨List.Pairwise.nil, ?_, List.Forall₂.nil⟩
    intro id hid
    simp [putSeq] at hid
  | (t, d) :: ts, n, hdvd, hlt => by
    have ht : t < 2 ^ k := hlt (t, d) (List.mem_cons_self _ _)
    have hdvd2 : 2 ^ k ∣ n + 2 ^ k := dvd_add hdvd dvd_rfl
    obtain ⟨a, ha⟩ := hdvd2
    have hor : (n + 2 ^ k) ||| t = n + 2 ^ k + t := by
      rw [ha]
      exact (Nat.mul_add_lt_is_or ht a).symm
    have hstep : (putSeq (2 ^ k) e b n ((t, d) :: ts)).2 =
        ((n + 2 ^ k) ||| t) :: (putSeq (2 ^ k) e b (n + 2 ^ k) ts).2 := by
      simp [putSeq, put]
    obtain ⟨ihp, ihlb, ihf⟩ := putSeq_aux e b k ts (n + 2 ^ k)
      (by rw [ha]; exact Dvd.intro a rfl)
      (fun p hp => hlt p (List.mem_cons_of_mem _ hp))
    refine ⟨?_, ?_, ?_⟩
    · rw [hstep]
      refine List.pairwise_cons.mpr ⟨?_, ihp⟩
      intro id hid
      have hlb := ihlb id hid
      rw [hor]
      omega
    · rw [hstep]
      intro id hid
      rcases List.mem_cons.mp hid with hh | hh
      · rw [hh, hor]
        omega
      · have hlb := ihlb id hh
        omega
    · rw [hstep]
      refine List.Forall₂.cons ?_ ihf
      rw [hor]
      have hmod : (n + 2 ^ k + t) &&& (2 ^ k - 1) = (n + 2 ^ k + t) % 2 ^ k :=
        Nat.and_pow_two_sub_one_eq_mod _ k
      rw [hmod, ha, Nat.mul_add_mod, Nat.mod_eq_of_lt ht]

/-- C4: over any sequence of generic puts on fresh records (dbid = 0) with
tags below SPACING = 2 ^ k, starting from a watermark that is a multiple of
SPACING, the assigned ids are pairwise distinct and each id masked with
SPACING - 1 equals its record's tag. -/
theorem put_assigned_ids_distinct_and_tagged (k : Nat) (enc : Data → Data)
    (backend : Nat → Data → Bool) (nextid : Nat) (ts : List (Nat × Data))
    (hdvd : 2 ^ k ∣ nextid) (hlt : ∀ p ∈ ts, p.1 < 2 ^ k) :
    List.Pairwise (· ≠ ·) (putSeq (2 ^ k) enc backend nextid ts).2 ∧
    List.Forall₂ (fun id p => id &&& (2 ^ k - 1) = p.1)
      (putSeq (2 ^ k) enc backend nextid ts).2 ts := by
  obtain ⟨hp, _, hf⟩ := putSeq_aux enc backend k ts nextid hdvd hlt
  exact ⟨hp.imp Nat.ne_of_lt, hf⟩

/-- C4 witness: SPACING = 16, tags 3, 5, 3 from watermark 0 give the distinct
ids 19, 37, 51, each of which masks back to its tag. -/
theorem put_assigned_ids_distinct_and_tagged_witness :
    ((2 : Nat) ^ 4 ∣ 0) ∧
    (∀ p ∈ [((3 : Nat), ([] : Data)), (5, []), (3, [])], p.1 < 2 ^ 4) ∧
    (List.Pairwise (· ≠ ·)
      (putSeq (2 ^ 4) id (fun _ _ => true) 0
        [((3 : Nat), ([] : Data)), (5, []), (3, [])]).2 ∧
    List.Forall₂ (fun id p => id &&& (2 ^ 4 - 1) = p.1)
      (putSeq (2 ^ 4) id (fun _ _ => true) 0
        [((3 : Nat), ([] : Data)), (5, []), (3, [])]).2
      [((3 : Nat), ([] : Data)), (5, []), (3, [])]) :=
  ⟨by decide, by decide,
    put_assigned_ids_distinct_and_tagged 4 id (fun _ _ => true) 0
      [((3 : Nat), ([] : Data)), (5, []), (3, [])] (by decide) (by decide)⟩

/-- C5: when the cursor yields a row with zero type tag, next returns it
as-is with the watermark untouched and no decryption; when the tag t is
nonzero and the watermark is a multiple of SPACING (an invariant of every
reachable state), the new watermark is max(old watermark, t rounded down to a
multiple of SPACING), the return value is the decryption outcome and the
payload out-parameter holds the decrypted bytes on success. -/
theorem next_zero_tag_and_watermark (S : Nat) (dec : Data → Option Data)
    (nextid t : Nat) (d : Data) (hdvd : S ∣ nextid) (ht : t ≠ 0) :
    next S dec nextid (some (0, d)) = (true, nextid, some (0, d)) ∧
    (next S dec nextid (some (t, d))).2.1 = max nextid (alignDown S t) ∧
    (next S dec nextid (some (t, d))).1 = (dec d).isSome ∧
    (next S dec nextid (some (t, d))).2.2 = some (t, (dec d).getD d) := by
  have hval : next S dec nextid (some (t, d)) =
      ((dec d).isSome, (if nextid < t then alignDown S t else nextid),
        some (t, (dec d).getD d)) := by
    cases hd : dec d <;> simp [next, ht, hd]
  have hmax : (if nextid < t then alignDown S t else nextid) =
      max nextid (alignDown S t) := by
    by_cases hlt : nextid < t
    · rw [if_pos hlt]
      have hsub : t - t % S = S * (t / S) :=
        Nat.sub_eq_of_eq_add (Nat.div_add_mod t S).symm
      have hle : nextid ≤ alignDown S t := by
        calc nextid = nextid / S * S := (Nat.div_mul_cancel hdvd).symm
          _ ≤ t / S * S := Nat.mul_le_mul_right S (Nat.div_le_div_right hlt.le)
          _ = S * (t / S) := Nat.mul_comm _ _
          _ = t - t % S := hsub.symm
          _ = alignDown S t := rfl
      exact (max_eq_right hle).symm
    · rw [if_neg hlt]
      have hle : alignDown S t ≤ nextid :=
        le_trans (Nat.sub_le _ _) (Nat.le_of_not_lt hlt)
      exact (max_eq_left hle).symm
  refine ⟨rfl, ?_, ?_, ?_⟩
  · rw [hval]
    exact hmax
  · rw [hval]
  · rw [hval]

/-- C5 witness: SPACING = 16, watermark 16, observed id 21: the watermark
becomes max(16, 16) = 16 and the payload is decrypted. -/
theorem next_zero_tag_and_watermark_witness :
    ((16 : Nat) ∣ 16) ∧ ((21 : Nat) ≠ 0) ∧
    (next 16 (fun _ => some []) 16 (some (0, [1])) =
      (true, 16, some (0, [1])) ∧
    (next 16 (fun _ => some []) 16 (some (21, [1]))).2.1 =
      max 16 (alignDown 16 21) ∧
    (next 16 (fun _ => some []) 16 (some (21, [1]))).1 =
      ((fun (_ : Data) => some ([] : Data)) [1]).isSome ∧
    (next 16 (fun _ => some []) 16 (some (21, [1]))).2.2 =
      some (21, ((fun (_ : Data) => some ([] : Data)) [1]).getD [1])) :=
  ⟨by decide, by decide,
    next_zero_tag_and_watermark 16 (fun _ => some []) 16 21 [1]
      (by decide) (by decide)⟩

/-- Specification of the inner drain loop: it fires exactly the callbacks of
the drained queries, one per count query and none for the sentinel, in queue
order, and reports whether the DELETE sentinel was drained. -/
theorem drainBatch_spec (st : Option Store) :
    ∀ (qs : List (QueryType × handle)) (ex : Bool),
      drainBatch st qs ex = (qs.filterMap (cbOf st), ex || qs.any isShutdown)
  | [], ex => by simp [drainBatch]
  | q :: qs, ex => by
    cases he : isShutdown q with
    | true =>
      have ih1 := drainBatch_spec st qs true
      cases hcb : cbOf st q <;>
        simp [drainBatch, he, ih1, hcb, List.filterMap_cons]
    | false =>
      have ih1 := drainBatch_spec st qs ex
      cases hcb : cbOf st q <;>
        simp [drainBatch, he, ih1, hcb, List.filterMap_cons]

/-- C9: the worker drain loop fires exactly one result callback per count
query, in FIFO enqueue order (the filterMap of the batch); and when the
drained batch contains the DELETE shutdown sentinel, every query of that
batch still gets its callback, the exit flag is set, and the worker loop
terminates without processing any later batch. -/
theorem worker_drain_fifo_shutdown (st : Option Store)
    (b : List (QueryType × handle))
    (batches : List (List (QueryType × handle)))
    (hsd : ∃ q ∈ b, q.1 = QueryType.DELETE) :
    (drainBatch st b false).1 = b.filterMap (cbOf st) ∧
    (drainBatch st b false).2 = true ∧
    workerLoop st (b :: batches) = b.filterMap (cbOf st) := by
  have hspec := drainBatch_spec st b false
  have hany : b.any isShutdown = true := by
    obtain ⟨q, hq, hql⟩ := hsd
    exact List.any_eq_true.mpr ⟨q, hq, by simp [isShutdown, hql]⟩
  refine ⟨by rw [hspec], by rw [hspec]; simp [hany], ?_⟩
  simp [workerLoop, hspec, hany]

/-- C9 witness: a batch holding one count query followed by the shutdown
sentinel, with one more batch queued behind it: the count callback fires and
the later batch is never processed. -/
theorem worker_drain_fifo_shutdown_witness :
    (∃ q ∈ [(QueryType.GET_NUM_CHILD_FILES, (1 : handle)),
      (QueryType.DELETE, 0)], q.1 = QueryType.DELETE) ∧
    (drainBatch none [(QueryType.GET_NUM_CHILD_FILES, (1 : handle)),
        (QueryType.DELETE, 0)] false).1 =
      List.filterMap (cbOf none) [(QueryType.GET_NUM_CHILD_FILES, (1 : handle)),
        (QueryType.DELETE, 0)] ∧
    workerLoop none [[(QueryType.GET_NUM_CHILD_FILES, (1 : handle)),
        (QueryType.DELETE, 0)], [(QueryType.GET_NUM_CHILD_FOLDERS, 2)]] =
      List.filterMap (cbOf none) [(QueryType.GET_NUM_CHILD_FILES, (1 : handle)),
        (QueryType.DELETE, 0)] := by
  have happ := worker_drain_fifo_shutdown none
    [(QueryType.GET_NUM_CHILD_FILES, (1 : handle)), (QueryType.DELETE, 0)]
    [[(QueryType.GET_NUM_CHILD_FOLDERS, 2)]]
    (by exact ⟨(QueryType.DELETE, 0), by simp⟩)
  exact ⟨⟨(QueryType.DELETE, 0), by simp⟩, happ.1, happ.2.2⟩

end MegaDb
